import Mathlib

/-!
Shallow embedding of the group-based anomaly detection pipeline of
`grand/group_anomaly/group_anomaly.py`, together with the collaborators it
imports (`PeerGrouping`, `Transformer`, `IndividualAnomalyInductive` and the
`grand.utils` helpers), whose sources are not part of this repository
snapshot: those are modelled from the specification and their doc comments
say so explicitly.

Numeric conventions: feature values, p-values and deviation levels are
rationals; timestamps and the reference-window duration `w_ref_group` are
integers (the Python code uses pandas datetimes and timedeltas).
-/

/-- Feature vector of one unit at one timestamp (`x_units[i]` in the source). -/
abbrev Sample := List ℚ

/-- Per-unit time-series history: ordered (timestamp, sample) rows, the
content of the pandas dataframes `dfs_original[i]` and `dfs[i]`. -/
abbrev DF := List (Int × Sample)

/-- Modelled from the spec: the error taxonomy of spec section 7
(`grand.utils` is not in the snapshot). `TestUnitError` and
`NoRefGroupError` are raised by `PeerGrouping`; `InsufficientReferenceError`
is the scorer-level failure. -/
inductive GrandError where
  | testUnitError
  | noRefGroupError
  | insufficientReferenceError
deriving DecidableEq, Repr

/-- Modelled from the spec: the immutable result record `DeviationContext`
of `grand.utils` (spec section 3). -/
structure DeviationContext where
  strangeness : ℚ
  pvalue : ℚ
  deviation : ℚ
  is_deviating : Bool
deriving DecidableEq, Repr

/-- Neutral default substituted on a caught per-step error:
`DeviationContext(0, 0.5, 0, False)` at `group_anomaly.py:110`. -/
def neutralContext : DeviationContext := ⟨0, 1/2, 0, false⟩

/-- Modelled from the spec: `append_to_df` from `grand.utils` appends one
(timestamp, sample) row to a per-unit history (append-only, spec section 3). -/
def append_to_df (df : DF) (dt : Int) (x : Sample) : DF := df ++ [(dt, x)]

/-- Clamp a rational into the unit interval. -/
def clamp01 (q : ℚ) : ℚ := max 0 (min 1 q)

/-- Last `n` elements of a list (trailing window). -/
def takeLast (n : Nat) (l : List α) : List α := l.drop (l.length - n)

/-- Insert into an ascending sorted list of rationals. -/
def insertSorted (a : ℚ) : List ℚ → List ℚ
  | [] => [a]
  | b :: l => if a ≤ b then a :: b :: l else b :: insertSorted a l

/-- Insertion sort of rationals, ascending. -/
def sortQ : List ℚ → List ℚ
  | [] => []
  | a :: l => insertSorted a (sortQ l)

/-- Lower median of a list of rationals (0 when the list is empty). -/
def medianOf (l : List ℚ) : ℚ := (sortQ l).getD ((l.length - 1) / 2) 0

/-- Coordinate-wise median of a set of samples. -/
def coordMedian (R : List Sample) : Sample := R.transpose.map medianOf

/-- Modelled from the spec: the distance between feature vectors used by the
strangeness measures. Spec 4.1 leaves the metric open ("distance (e.g.,
Euclidean)"); we use the L1 distance, which keeps every score rational. -/
def dist1 (x y : Sample) : ℚ := ((x.zip y).map fun p => |p.1 - p.2|).sum

/-- Strangeness measure selector: the `non_conformity` configuration string
of the source, one of "median", "knn", "lof". -/
inductive NonConformity where
  | median
  | knn
  | lof
deriving DecidableEq, Repr

/-- Mean distance from `x` to its `k` nearest reference samples. -/
def knnScore (k : Nat) (R : List Sample) (x : Sample) : ℚ :=
  ((sortQ (R.map (dist1 x))).take k).sum / (k : ℚ)

/-- Mean distance from `x` to every reference sample. -/
def meanDist (R : List Sample) (x : Sample) : ℚ :=
  (R.map (dist1 x)).sum / ((R.length : ℚ))

/-- Modelled from the spec: a simplified local-density-ratio outlier factor
(spec 4.1: "local density-ratio outlier factor of the sample relative to the
reference set"; the exact formulation is not in the snapshot, so we take the
ratio of the sample's mean distance to the reference over the reference's
own average mean distance). -/
def lofScore (R : List Sample) (x : Sample) : ℚ :=
  meanDist R x / ((R.map (meanDist R)).sum / ((R.length : ℚ)))

/-- Modelled from the spec: `StrangenessScorer` scoring (spec 4.1). Fails
with `InsufficientReferenceError` when the reference set is empty, and for
`knn` additionally when `k = 0` or `k` exceeds the reference size (spec
section 7 treats an oversized `k` as raising this error). -/
def scoreOf (nc : NonConformity) (k : Nat) (R : List Sample) (x : Sample) :
    Except GrandError ℚ :=
  match nc with
  | .median =>
    if R.isEmpty then .error .insufficientReferenceError
    else .ok (dist1 (coordMedian R) x)
  | .knn =>
    if R.isEmpty || k == 0 || decide (R.length < k) then .error .insufficientReferenceError
    else .ok (knnScore k R x)
  | .lof =>
    if R.isEmpty then .error .insufficientReferenceError
    else .ok (lofScore R x)

/-- Linear congruential step of the injectable tie-break generator (spec
design note: "make the random source an explicit injectable parameter
(seeded generator)"). -/
def lcgNext (s : Nat) : Nat := (s * 1103515245 + 12345) % 2 ^ 31

/-- Uniform tie-break draw in [0,1): the `n`-th value of the seeded stream. -/
def uniform01 (seed n : Nat) : ℚ := (((lcgNext^[n + 1] seed) % 2 ^ 20 : ℕ) : ℚ) / (2 ^ 20 : ℚ)

/-- Transformer policy: the `transformer` configuration of the source,
`None` (identity) or "pvalue". -/
inductive TransformKind where
  | identity
  | pvalue
deriving DecidableEq, Repr

/-- Modelled from the spec: per-unit stateful `Transformer`
(`grand/group_anomaly/transformer.py` is not in the snapshot). It keeps a
trailing window of at most `w_transform` recent raw samples (spec 4.2). -/
structure Transformer where
  w_transform : Nat
  kind : TransformKind
  window : List Sample
deriving DecidableEq, Repr

/-- Modelled from the spec: `Transformer.transform` (spec 4.2): identity
pass-through, or a rank-based transform mapping each coordinate to the
fraction of window samples at or below it; the raw sample is then pushed
into the trailing window. Dimensionality is preserved. -/
def Transformer.transform (tr : Transformer) (x : Sample) : Sample × Transformer :=
  let y : Sample :=
    match tr.kind with
    | .identity => x
    | .pvalue =>
      (List.range x.length).map fun j =>
        (((tr.window.filter fun s => decide (s.getD j 0 ≤ x.getD j 0)).length : ℚ)) /
          ((tr.window.length : ℚ) + 1)
  (y, { tr with window := takeLast tr.w_transform (tr.window ++ [x]) })

/-- Modelled from the spec: the state of `IndividualAnomalyInductive`
(spec 4.4; imported from the `grand` package but not in the snapshot): the
fitted strangeness model plus the append-only sequences `T`, `S`, `P`, `M`
and the diagnostic `representatives` / `diffs`. -/
structure Detector where
  w_martingale : Nat
  non_conformity : NonConformity
  k : Nat
  dev_threshold : ℚ
  seed : Nat
  model : List Sample
  T : List Int
  S : List ℚ
  P : List ℚ
  M : List ℚ
  representatives : List Sample
  diffs : List Sample
deriving DecidableEq, Repr

/-- Detector value used as the out-of-range default for list indexing. -/
def defaultDetector : Detector :=
  ⟨0, .median, 0, 0, 0, [], [], [], [], [], [], []⟩

/-- Modelled from the spec: `IndividualAnomalyInductive.fit` (spec 4.4)
replaces the fitted strangeness model with the new reference group. -/
def Detector.fit (d : Detector) (R : List Sample) : Detector := { d with model := R }

/-- Modelled from the spec: the standard conformal p-value of a new
strangeness value `alpha` against the recorded history `S`, with the seeded
uniform tie-break on exact ties (spec 4.4 step 2). -/
def conformalPvalue (seed : Nat) (S : List ℚ) (alpha : ℚ) : ℚ :=
  (((S.filter fun s => decide (alpha < s)).length : ℚ) +
      uniform01 seed S.length * (((S.filter fun s => decide (s = alpha)).length : ℚ) + 1)) /
    ((S.length : ℚ) + 1)

/-- Modelled from the spec: the deviation level (spec 4.4 step 3): a
trailing statistic over the last `w` p-values that grows when they are
systematically small, mapped into [0,1]; the spec design note leaves the
exact martingale formulation to the implementer. -/
def deviationLevel (w : Nat) (P : List ℚ) : ℚ :=
  clamp01 (((takeLast w P).map fun p => 1 - 2 * p).sum / ((w : ℚ)))

/-- Modelled from the spec: `IndividualAnomalyInductive.predict` (spec 4.4).
Computes the strangeness of `x` against the fitted model, the conformal
p-value over the recorded strangeness history, and the deviation level over
the trailing p-value window; decides the threshold and appends exactly one
entry to each state sequence. -/
def Detector.predict (d : Detector) (dt : Int) (x : Sample) :
    Except GrandError (DeviationContext × Detector) :=
  match scoreOf d.non_conformity d.k d.model x with
  | .error e => .error e
  | .ok alpha =>
    .ok (⟨alpha, conformalPvalue d.seed d.S alpha,
          deviationLevel d.w_martingale (d.P ++ [conformalPvalue d.seed d.S alpha]),
          decide (d.dev_threshold ≤
            deviationLevel d.w_martingale (d.P ++ [conformalPvalue d.seed d.S alpha]))⟩,
      { d with T := d.T ++ [dt], S := d.S ++ [alpha],
               P := d.P ++ [conformalPvalue d.seed d.S alpha],
               M := d.M ++ [deviationLevel d.w_martingale (d.P ++ [conformalPvalue d.seed d.S alpha])],
               representatives := d.representatives ++ [coordMedian d.model],
               diffs := d.diffs ++ [(x.zip (coordMedian d.model)).map fun p => p.1 - p.2] })

/-- Modelled from the spec: `PeerGrouping` configuration
(`grand/group_anomaly/peer_grouping.py` is not in the snapshot); the
reference-window length `w_ref_group` is a duration, here an integer number
of time units. -/
structure PeerGrouping where
  w_ref_group : Int
deriving DecidableEq, Repr

/-- Reference group for target `uid` at time `dt`: every sample of every
unit other than the target whose timestamp lies in the window
[dt - w_ref_group, dt], closed on both ends as spec 4.3 recommends. -/
def refGroup (pg : PeerGrouping) (uid : Nat) (dt : Int) (dfs : List DF) : List Sample :=
  (List.range dfs.length).flatMap fun i =>
    if i = uid then []
    else ((dfs.getD i []).filter fun p =>
      decide (dt - pg.w_ref_group ≤ p.1) && decide (p.1 ≤ dt)).map Prod.snd

/-- Modelled from the spec: `PeerGrouping.get_target_and_reference`
(spec 4.3): locate the target's sample at `dt` (`TestUnitError` when
absent), collect the reference group from the peers' histories, and fail
with `NoRefGroupError` when it is empty. -/
def PeerGrouping.get_target_and_reference (pg : PeerGrouping) (uid : Nat) (dt : Int)
    (dfs : List DF) : Except GrandError (Sample × List Sample) :=
  match (dfs.getD uid []).find? (fun p => decide (p.1 = dt)) with
  | none => .error .testUnitError
  | some tp =>
    if (refGroup pg uid dt dfs).isEmpty then .error .noRefGroupError
    else .ok (tp.2, refGroup pg uid dt dfs)

/-- State of `GroupAnomaly` (`group_anomaly.py:18`): the configuration plus
the per-unit raw and transformed histories, the shared `PeerGrouping`, and
one detector and one transformer per unit. -/
structure GroupAnomaly where
  nb_units : Nat
  ids_target_units : List Nat
  w_ref_group : Int
  w_martingale : Nat
  non_conformity : NonConformity
  k : Nat
  dev_threshold : ℚ
  transformer : TransformKind
  w_transform : Nat
  dfs_original : List DF
  dfs : List DF
  pg : PeerGrouping
  detectors : List Detector
  transformers : List Transformer
deriving DecidableEq, Repr

/-- Constructor `GroupAnomaly.__init__` (`group_anomaly.py:47`): empty
per-unit histories, one shared `PeerGrouping`, one detector and one
transformer per unit; `seed` is the injectable tie-break seed required by
the spec design note on randomness. -/
def GroupAnomaly.init (nb_units : Nat) (ids_target_units : List Nat) (w_ref_group : Int)
    (w_martingale : Nat) (non_conformity : NonConformity) (k : Nat) (dev_threshold : ℚ)
    (transformer : TransformKind) (w_transform : Nat) (seed : Nat) : GroupAnomaly :=
  { nb_units := nb_units
    ids_target_units := ids_target_units
    w_ref_group := w_ref_group
    w_martingale := w_martingale
    non_conformity := non_conformity
    k := k
    dev_threshold := dev_threshold
    transformer := transformer
    w_transform := w_transform
    dfs_original := List.replicate nb_units []
    dfs := List.replicate nb_units []
    pg := ⟨w_ref_group⟩
    detectors := List.replicate nb_units
      ⟨w_martingale, non_conformity, k, dev_threshold, seed, [], [], [], [], [], [], []⟩
    transformers := List.replicate nb_units ⟨w_transform, transformer, []⟩ }

/-- New raw histories after one `predict` step (`group_anomaly.py:95`): the
comprehension is driven by `enumerate(x_units)`, so the stored list is
resized to `x_units.length` when that differs from `nb_units` (the source
has only a TODO for the missing length assertion, `group_anomaly.py:66`). -/
def GroupAnomaly.newDfsOriginal (ga : GroupAnomaly) (dt : Int) (xs : List Sample) : List DF :=
  (List.range xs.length).map fun i => append_to_df (ga.dfs_original.getD i []) dt (xs.getD i [])

/-- Transformed samples paired with the updated transformers
(`group_anomaly.py:97`): `zip` truncates to the shorter of `x_units` and
the transformer list. -/
def GroupAnomaly.transformPairs (ga : GroupAnomaly) (xs : List Sample) :
    List (Sample × Transformer) :=
  (xs.zip ga.transformers).map fun p => Transformer.transform p.2 p.1

/-- Transformed samples of one step (`x_units_tr` at `group_anomaly.py:97`). -/
def GroupAnomaly.xUnitsTr (ga : GroupAnomaly) (xs : List Sample) : List Sample :=
  (ga.transformPairs xs).map Prod.fst

/-- New transformed histories after one step (`group_anomaly.py:98`). -/
def GroupAnomaly.newDfs (ga : GroupAnomaly) (dt : Int) (xs : List Sample) : List DF :=
  (List.range (ga.xUnitsTr xs).length).map fun i =>
    append_to_df (ga.dfs.getD i []) dt ((ga.xUnitsTr xs).getD i [])

/-- Body of the per-target-unit `try` block (`group_anomaly.py:105`):
peer-group, fit, predict. On an error the second component is the detector
state as mutated so far (the fitted model survives a scorer failure, as the
Python object does). -/
def predictUnitRaw (pg : PeerGrouping) (uid : Nat) (dt : Int) (dfs : List DF)
    (d : Detector) : Except GrandError (DeviationContext × Detector) × Detector :=
  match pg.get_target_and_reference uid dt dfs with
  | .error e => (.error e, d)
  | .ok xR =>
    match (d.fit xR.2).predict dt xR.1 with
    | .error e => (.error e, d.fit xR.2)
    | .ok r => (.ok r, d.fit xR.2)

/-- One target unit inside the `predict` loop (`group_anomaly.py:102`):
`TestUnitError` and `NoRefGroupError` are caught and replaced by the
neutral context (`group_anomaly.py:109`); any other error propagates. -/
def predictUnit (pg : PeerGrouping) (uid : Nat) (dt : Int) (dfs : List DF)
    (d : Detector) : Except GrandError DeviationContext × Detector :=
  match predictUnitRaw pg uid dt dfs d with
  | (.ok r, _) => (.ok r.1, r.2)
  | (.error .testUnitError, d2) => (.ok neutralContext, d2)
  | (.error .noRefGroupError, d2) => (.ok neutralContext, d2)
  | (.error e, d2) => (.error e, d2)

/-- Loop over `ids_target_units` (`group_anomaly.py:102`): accumulates one
context per target unit in list order; an uncaught error aborts the loop and
is returned, while the detectors mutated so far are kept, as the Python
objects are. -/
def predictLoop (pg : PeerGrouping) (dt : Int) (dfs : List DF) :
    List Detector → List Nat → Except GrandError (List DeviationContext) × List Detector
  | detectors, [] => (.ok [], detectors)
  | detectors, uid :: rest =>
    match predictUnit pg uid dt dfs (detectors.getD uid defaultDetector) with
    | (.error e, d2) => (.error e, detectors.set uid d2)
    | (.ok c, d2) =>
      match predictLoop pg dt dfs (detectors.set uid d2) rest with
      | (.error e, ds) => (.error e, ds)
      | (.ok cs, ds) => (.ok (c :: cs), ds)

/-- `GroupAnomaly.predict` (`group_anomaly.py:67`): append the raw samples,
transform and append the transformed samples, then diagnose each target
unit in the configured order. The first component is the returned list of
deviation contexts (or the uncaught error); the second is the mutated
state. -/
def GroupAnomaly.predict (ga : GroupAnomaly) (dt : Int) (xs : List Sample) :
    Except GrandError (List DeviationContext) × GroupAnomaly :=
  let dfs1 := ga.newDfs dt xs
  let r := predictLoop ga.pg dt dfs1 ga.detectors ga.ids_target_units
  (r.1, { ga with dfs_original := ga.newDfsOriginal dt xs
                  dfs := dfs1
                  transformers := (ga.transformPairs xs).map Prod.snd ++
                    ga.transformers.drop (ga.transformPairs xs).length
                  detectors := r.2 })

/-- Sequential run over an input stream: one `predict` call per
(timestamp, samples) element, threading the mutated state. -/
def GroupAnomaly.run (ga : GroupAnomaly) :
    List (Int × List Sample) → List (Except GrandError (List DeviationContext)) × GroupAnomaly
  | [] => ([], ga)
  | p :: rest =>
    let r := ga.predict p.1 p.2
    let rs := r.2.run rest
    (r.1 :: rs.1, rs.2)

/-- Single-unit configuration with `dev_threshold = 0`, used to probe the
threshold biconditional on the neutral context. -/
def gaThr0 : GroupAnomaly :=
  GroupAnomaly.init 1 [0] 7 15 .median 20 0 .identity 30 0

/-- Two-unit knn configuration with the source's default `k = 20`, far
larger than the one reference sample available on the first step. -/
def gaKnn : GroupAnomaly :=
  GroupAnomaly.init 2 [0] 7 15 .knn 20 (1/2) .identity 30 0

/-- Two-unit median configuration with positive threshold. -/
def gaTwo : GroupAnomaly :=
  GroupAnomaly.init 2 [0] 7 15 .median 20 (1/2) .identity 30 0

theorem clamp01_nonneg (q : ℚ) : 0 ≤ clamp01 q := le_max_left 0 _

theorem clamp01_le_one (q : ℚ) : clamp01 q ≤ 1 := max_le (by norm_num) (min_le_left 1 q)

theorem uniform01_nonneg (s n : Nat) : 0 ≤ uniform01 s n := by
  unfold uniform01; positivity

theorem uniform01_lt_one (s n : Nat) : uniform01 s n < 1 := by
  unfold uniform01
  rw [div_lt_one (by positivity)]
  have h := Nat.mod_lt (lcgNext^[n + 1] s) (show 0 < 2 ^ 20 by norm_num)
  exact_mod_cast h

theorem length_filter_lt_add_eq_le (S : List ℚ) (a : ℚ) :
    (S.filter fun s => decide (a < s)).length + (S.filter fun s => decide (s = a)).length ≤
      S.length := by
  induction S with
  | nil => simp
  | cons b S ih =>
    by_cases h1 : a < b
    · have h2 : ¬(b = a) := fun hb => absurd (hb ▸ h1) (lt_irrefl a)
      simp [List.filter_cons, h1, h2]
      omega
    · by_cases h2 : b = a
      · simp [List.filter_cons, h1, h2]
        omega
      · simp [List.filter_cons, h1, h2]
        omega

theorem conformalPvalue_nonneg (seed : Nat) (S : List ℚ) (a : ℚ) :
    0 ≤ conformalPvalue seed S a := by
  unfold conformalPvalue
  have hθ := uniform01_nonneg seed S.length
  apply div_nonneg _ (by positivity)
  have : (0 : ℚ) ≤ uniform01 seed S.length * (((S.filter fun s => decide (s = a)).length : ℚ) + 1) :=
    mul_nonneg hθ (by positivity)
  positivity

theorem conformalPvalue_le_one (seed : Nat) (S : List ℚ) (a : ℚ) :
    conformalPvalue seed S a ≤ 1 := by
  unfold conformalPvalue
  rw [div_le_one (by positivity)]
  have hθ1 : uniform01 seed S.length ≤ 1 := le_of_lt (uniform01_lt_one seed S.length)
  have hθ0 := uniform01_nonneg seed S.length
  have hmul : uniform01 seed S.length * (((S.filter fun s => decide (s = a)).length : ℚ) + 1) ≤
      ((S.filter fun s => decide (s = a)).length : ℚ) + 1 :=
    mul_le_of_le_one_left (by positivity) hθ1
  have hcnt : ((S.filter fun s => decide (a < s)).length : ℚ) +
      ((S.filter fun s => decide (s = a)).length : ℚ) ≤ (S.length : ℚ) := by
    exact_mod_cast length_filter_lt_add_eq_le S a
  linarith

theorem deviationLevel_nonneg (w : Nat) (P : List ℚ) : 0 ≤ deviationLevel w P :=
  clamp01_nonneg _

theorem deviationLevel_le_one (w : Nat) (P : List ℚ) : deviationLevel w P ≤ 1 :=
  clamp01_le_one _

theorem scoreOf_error (nc : NonConformity) (k : Nat) (R : List Sample) (x : Sample)
    (e : GrandError) (h : scoreOf nc k R x = .error e) : e = .insufficientReferenceError := by
  cases nc <;> simp only [scoreOf] at h <;> split at h <;> simp_all

theorem Detector.fit_dev_threshold (d : Detector) (R : List Sample) :
    (d.fit R).dev_threshold = d.dev_threshold := rfl

theorem Detector.predict_error (d : Detector) (dt : Int) (x : Sample) (e : GrandError)
    (h : Detector.predict d dt x = .error e) : e = .insufficientReferenceError := by
  unfold Detector.predict at h
  cases hs : scoreOf d.non_conformity d.k d.model x with
  | error e2 =>
    rw [hs] at h
    simp only [Except.error.injEq] at h
    exact h ▸ scoreOf_error _ _ _ _ _ hs
  | ok a =>
    rw [hs] at h
    exact absurd h (by simp)

theorem Detector.predict_ok_spec (d : Detector) (dt : Int) (x : Sample)
    (c : DeviationContext) (d' : Detector)
    (h : Detector.predict d dt x = .ok (c, d')) :
    (0 ≤ c.pvalue ∧ c.pvalue ≤ 1) ∧ (0 ≤ c.deviation ∧ c.deviation ≤ 1) ∧
      c.is_deviating = decide (d.dev_threshold ≤ c.deviation) ∧
      d'.dev_threshold = d.dev_threshold := by
  unfold Detector.predict at h
  cases hs : scoreOf d.non_conformity d.k d.model x with
  | error e2 =>
    rw [hs] at h
    exact absurd h (by simp)
  | ok alpha =>
    rw [hs] at h
    simp only [Except.ok.injEq, Prod.mk.injEq] at h
    obtain ⟨hc, hd⟩ := h
    subst hc
    subst hd
    refine ⟨⟨conformalPvalue_nonneg _ _ _, conformalPvalue_le_one _ _ _⟩,
      ⟨deviationLevel_nonneg _ _, deviationLevel_le_one _ _⟩, rfl, rfl⟩

theorem getD_mem_of_lt (l : List α) (n : Nat) (d : α) (h : n < l.length) :
    l.getD n d ∈ l := by
  induction l generalizing n with
  | nil => simp at h
  | cons a l ih =>
    cases n with
    | zero => simp
    | succ m =>
      simp only [List.getD_cons_succ]
      exact List.mem_cons_of_mem _ (ih m (by simpa using h))

theorem predictUnit_dev_threshold (pg : PeerGrouping) (uid : Nat) (dt : Int) (dfs : List DF)
    (d : Detector) : (predictUnit pg uid dt dfs d).2.dev_threshold = d.dev_threshold := by
  unfold predictUnit predictUnitRaw
  cases hg : pg.get_target_and_reference uid dt dfs with
  | error e => cases e <;> simp [hg]
  | ok xR =>
    cases hp : (d.fit xR.2).predict dt xR.1 with
    | error e =>
      have he := Detector.predict_error _ _ _ _ hp
      subst he
      simp only [hg, hp]
      rfl
    | ok r =>
      have hs := Detector.predict_ok_spec (d.fit xR.2) dt xR.1 r.1 r.2 (by rw [hp])
      simp only [hg, hp]
      exact hs.2.2.2

theorem predictUnit_error (pg : PeerGrouping) (uid : Nat) (dt : Int) (dfs : List DF)
    (d : Detector) (e : GrandError)
    (h : (predictUnit pg uid dt dfs d).1 = .error e) : e = .insufficientReferenceError := by
  unfold predictUnit predictUnitRaw at h
  cases hg : pg.get_target_and_reference uid dt dfs with
  | error e0 =>
    simp only [hg] at h
    cases e0 <;> simp_all
  | ok xR =>
    simp only [hg] at h
    cases hp : (d.fit xR.2).predict dt xR.1 with
    | error e1 =>
      have he := Detector.predict_error _ _ _ _ hp
      subst he
      simp only [hp] at h
      simp_all
    | ok r =>
      simp only [hp] at h
      simp_all

theorem predictUnit_neutral_of_pg_error (pg : PeerGrouping) (uid : Nat) (dt : Int)
    (dfs : List DF) (d : Detector)
    (h : pg.get_target_and_reference uid dt dfs = .error .testUnitError ∨
         pg.get_target_and_reference uid dt dfs = .error .noRefGroupError) :
    (predictUnit pg uid dt dfs d).1 = .ok neutralContext := by
  unfold predictUnit predictUnitRaw
  rcases h with h | h <;> rw [h]

theorem predictUnit_ok_shape (pg : PeerGrouping) (uid : Nat) (dt : Int) (dfs : List DF)
    (d : Detector) (c : DeviationContext)
    (h : (predictUnit pg uid dt dfs d).1 = .ok c) :
    c = neutralContext ∨ ∃ x R d', pg.get_target_and_reference uid dt dfs = .ok (x, R) ∧
      Detector.predict (d.fit R) dt x = .ok (c, d') := by
  unfold predictUnit predictUnitRaw at h
  cases hg : pg.get_target_and_reference uid dt dfs with
  | error e0 =>
    cases e0 with
    | testUnitError =>
      simp only [hg, Except.ok.injEq] at h
      exact Or.inl h.symm
    | noRefGroupError =>
      simp only [hg, Except.ok.injEq] at h
      exact Or.inl h.symm
    | insufficientReferenceError => simp [hg] at h
  | ok xR =>
    obtain ⟨x0, R0⟩ := xR
    simp only [hg] at h
    cases hp : (d.fit R0).predict dt x0 with
    | error e1 =>
      have he := Detector.predict_error _ _ _ _ hp
      subst he
      simp only [hp] at h
      simp at h
    | ok r =>
      simp only [hp] at h
      simp only [Except.ok.injEq] at h
      subst h
      exact Or.inr ⟨x0, R0, r.2, rfl, hp⟩

theorem predictLoop_error (pg : PeerGrouping) (dt : Int) (dfs : List DF) :
    ∀ (ids : List Nat) (detectors : List Detector) (e : GrandError),
      (predictLoop pg dt dfs detectors ids).1 = .error e → e = .insufficientReferenceError := by
  intro ids
  induction ids with
  | nil => intro detectors e h; simp [predictLoop] at h
  | cons u rest ih =>
    intro detectors e h
    unfold predictLoop at h
    cases hu : predictUnit pg u dt dfs (detectors.getD u defaultDetector) with
    | mk r d2 =>
      simp only [hu] at h
      cases r with
      | error e0 =>
        simp only [Except.error.injEq] at h
        subst h
        exact predictUnit_error pg u dt dfs _ _ (by rw [hu])
      | ok c =>
        cases hl : predictLoop pg dt dfs (detectors.set u d2) rest with
        | mk rr ds =>
          simp only [hl] at h
          cases rr with
          | error e1 =>
            simp only [Except.error.injEq] at h
            subst h
            exact ih _ _ (by rw [hl])
          | ok cs => simp at h

theorem predictLoop_length (pg : PeerGrouping) (dt : Int) (dfs : List DF) :
    ∀ (ids : List Nat) (detectors : List Detector) (ctxs : List DeviationContext),
      (predictLoop pg dt dfs detectors ids).1 = .ok ctxs → ctxs.length = ids.length := by
  intro ids
  induction ids with
  | nil =>
    intro detectors ctxs h
    simp only [predictLoop, Except.ok.injEq] at h
    subst h
    rfl
  | cons u rest ih =>
    intro detectors ctxs h
    unfold predictLoop at h
    cases hu : predictUnit pg u dt dfs (detectors.getD u defaultDetector) with
    | mk r d2 =>
      simp only [hu] at h
      cases r with
      | error e0 => simp at h
      | ok c =>
        cases hl : predictLoop pg dt dfs (detectors.set u d2) rest with
        | mk rr ds =>
          simp only [hl] at h
          cases rr with
          | error e1 => simp at h
          | ok cs =>
            simp only [Except.ok.injEq] at h
            subst h
            simp only [List.length_cons]
            rw [ih _ _ (by rw [hl])]

theorem predictLoop_get_neutral (pg : PeerGrouping) (dt : Int) (dfs : List DF) :
    ∀ (ids : List Nat) (j uid : Nat) (detectors : List Detector) (ctxs : List DeviationContext),
      ids[j]? = some uid →
      (∀ d0, (predictUnit pg uid dt dfs d0).1 = .ok neutralContext) →
      (predictLoop pg dt dfs detectors ids).1 = .ok ctxs →
      ctxs[j]? = some neutralContext := by
  intro ids
  induction ids with
  | nil => intro j uid detectors ctxs hj; simp at hj
  | cons u rest ih =>
    intro j uid detectors ctxs hj hneu h
    unfold predictLoop at h
    cases hu : predictUnit pg u dt dfs (detectors.getD u defaultDetector) with
    | mk r d2 =>
      simp only [hu] at h
      cases r with
      | error e0 => simp at h
      | ok c =>
        cases hl : predictLoop pg dt dfs (detectors.set u d2) rest with
        | mk rr ds =>
          simp only [hl] at h
          cases rr with
          | error e1 => simp at h
          | ok cs =>
            simp only [Except.ok.injEq] at h
            subst h
            cases j with
            | zero =>
              have huid : u = uid := by simpa using hj
              have hc := hneu (detectors.getD u defaultDetector)
              rw [← huid] at hc
              rw [hu] at hc
              simp only [Except.ok.injEq] at hc
              simp [hc]
            | succ j2 =>
              simp only [List.getElem?_cons_succ] at hj
              simpa using ih j2 uid (detectors.set u d2) cs hj hneu (by rw [hl])

theorem predictLoop_frame (pg : PeerGrouping) (dt : Int) (dfs : List DF) :
    ∀ (ids : List Nat) (detectors : List Detector) (i : Nat), i ∉ ids →
      (predictLoop pg dt dfs detectors ids).2[i]? = detectors[i]? := by
  intro ids
  induction ids with
  | nil => intro detectors i hi; rfl
  | cons u rest ih =>
    intro detectors i hi
    have hiu : u ≠ i := fun he => hi (he ▸ List.mem_cons_self u rest)
    have hirest : i ∉ rest := fun he => hi (List.mem_cons_of_mem u he)
    unfold predictLoop
    cases hu : predictUnit pg u dt dfs (detectors.getD u defaultDetector) with
    | mk r d2 =>
      cases r with
      | error e0 =>
        show (detectors.set u d2)[i]? = detectors[i]?
        exact List.getElem?_set_ne hiu
      | ok c =>
        show (match predictLoop pg dt dfs (detectors.set u d2) rest with
              | (Except.error e, ds) => (Except.error e, ds)
              | (Except.ok cs, ds) => (Except.ok (c :: cs), ds)).2[i]? = detectors[i]?
        cases hl : predictLoop pg dt dfs (detectors.set u d2) rest with
        | mk rr ds =>
          have hds : ds[i]? = detectors[i]? := by
            have h2 := ih (detectors.set u d2) i hirest
            rw [hl] at h2
            rw [h2]
            exact List.getElem?_set_ne hiu
          cases rr <;> simpa using hds

theorem predictLoop_ok_mem (pg : PeerGrouping) (dt : Int) (dfs : List DF) :
    ∀ (ids : List Nat) (detectors : List Detector) (ctxs : List DeviationContext),
      (predictLoop pg dt dfs detectors ids).1 = .ok ctxs →
      ∀ c ∈ ctxs, c = neutralContext ∨ ∃ d x d', Detector.predict d dt x = .ok (c, d') := by
  intro ids
  induction ids with
  | nil =>
    intro detectors ctxs h
    simp only [predictLoop, Except.ok.injEq] at h
    subst h
    simp
  | cons u rest ih =>
    intro detectors ctxs h c hc
    unfold predictLoop at h
    cases hu : predictUnit pg u dt dfs (detectors.getD u defaultDetector) with
    | mk r d2 =>
      simp only [hu] at h
      cases r with
      | error e0 => simp at h
      | ok c1 =>
        cases hl : predictLoop pg dt dfs (detectors.set u d2) rest with
        | mk rr ds =>
          simp only [hl] at h
          cases rr with
          | error e1 => simp at h
          | ok cs =>
            simp only [Except.ok.injEq] at h
            subst h
            rcases List.mem_cons.mp hc with rfl | hc2
            · rcases predictUnit_ok_shape pg u dt dfs _ c (by rw [hu]) with hn | ⟨x, R, d', _, hp⟩
              · exact Or.inl hn
              · exact Or.inr ⟨_, x, d', hp⟩
            · exact ih _ _ (by rw [hl]) c hc2

theorem predictLoop_ok_mem_thr (pg : PeerGrouping) (dt : Int) (dfs : List DF) (c0 : ℚ) :
    ∀ (ids : List Nat) (detectors : List Detector),
      (∀ u ∈ ids, u < detectors.length) →
      (∀ d ∈ detectors, d.dev_threshold = c0) →
      ∀ ctxs, (predictLoop pg dt dfs detectors ids).1 = .ok ctxs →
      ∀ c ∈ ctxs, c = neutralContext ∨
        ∃ d x d', d.dev_threshold = c0 ∧ Detector.predict d dt x = .ok (c, d') := by
  intro ids
  induction ids with
  | nil =>
    intro detectors _ _ ctxs h
    simp only [predictLoop, Except.ok.injEq] at h
    subst h
    simp
  | cons u rest ih =>
    intro detectors hlen hthr ctxs h c hc
    have hd0 : (detectors.getD u defaultDetector).dev_threshold = c0 :=
      hthr _ (getD_mem_of_lt _ _ _ (hlen u (List.mem_cons_self u rest)))
    unfold predictLoop at h
    cases hu : predictUnit pg u dt dfs (detectors.getD u defaultDetector) with
    | mk r d2 =>
      simp only [hu] at h
      have hd2 : d2.dev_threshold = c0 := by
        have h3 := predictUnit_dev_threshold pg u dt dfs (detectors.getD u defaultDetector)
        rw [hu] at h3
        exact h3.trans hd0
      cases r with
      | error e0 => simp at h
      | ok c1 =>
        cases hl : predictLoop pg dt dfs (detectors.set u d2) rest with
        | mk rr ds =>
          simp only [hl] at h
          cases rr with
          | error e1 => simp at h
          | ok cs =>
            simp only [Except.ok.injEq] at h
            subst h
            rcases List.mem_cons.mp hc with rfl | hc2
            · rcases predictUnit_ok_shape pg u dt dfs _ c (by rw [hu]) with hn | ⟨x, R, d', _, hp⟩
              · exact Or.inl hn
              · exact Or.inr ⟨(detectors.getD u defaultDetector).fit R, x, d', hd0, hp⟩
            · refine ih (detectors.set u d2) ?_ ?_ cs (by rw [hl]) c hc2
              · intro v hv
                rw [List.length_set]
                exact hlen v (List.mem_cons_of_mem u hv)
              · intro d hd
                rcases List.mem_or_eq_of_mem_set hd with hmem | rfl
                · exact hthr d hmem
                · exact hd2

theorem GroupAnomaly.predict_fst (ga : GroupAnomaly) (dt : Int) (xs : List Sample) :
    (ga.predict dt xs).1 =
      (predictLoop ga.pg dt (ga.newDfs dt xs) ga.detectors ga.ids_target_units).1 := rfl

theorem GroupAnomaly.predict_snd_detectors (ga : GroupAnomaly) (dt : Int) (xs : List Sample) :
    (ga.predict dt xs).2.detectors =
      (predictLoop ga.pg dt (ga.newDfs dt xs) ga.detectors ga.ids_target_units).2 := rfl

theorem GroupAnomaly.predict_snd_dfs_original (ga : GroupAnomaly) (dt : Int) (xs : List Sample) :
    (ga.predict dt xs).2.dfs_original = ga.newDfsOriginal dt xs := rfl

theorem GroupAnomaly.predict_snd_dfs (ga : GroupAnomaly) (dt : Int) (xs : List Sample) :
    (ga.predict dt xs).2.dfs = ga.newDfs dt xs := rfl

theorem newDfsOriginal_length (ga : GroupAnomaly) (dt : Int) (xs : List Sample) :
    (ga.newDfsOriginal dt xs).length = xs.length := by
  simp [GroupAnomaly.newDfsOriginal]

theorem newDfsOriginal_getD (ga : GroupAnomaly) (dt : Int) (xs : List Sample)
    (i : Nat) (hi : i < xs.length) :
    (ga.newDfsOriginal dt xs).getD i [] =
      ga.dfs_original.getD i [] ++ [(dt, xs.getD i [])] := by
  unfold GroupAnomaly.newDfsOriginal
  rw [List.getD_eq_getElem?_getD, List.getElem?_map, List.getElem?_range hi]
  rfl

theorem xUnitsTr_length (ga : GroupAnomaly) (xs : List Sample) :
    (ga.xUnitsTr xs).length = min xs.length ga.transformers.length := by
  simp [GroupAnomaly.xUnitsTr, GroupAnomaly.transformPairs]

theorem newDfs_length (ga : GroupAnomaly) (dt : Int) (xs : List Sample) :
    (ga.newDfs dt xs).length = (ga.xUnitsTr xs).length := by
  simp [GroupAnomaly.newDfs]

theorem newDfs_getD (ga : GroupAnomaly) (dt : Int) (xs : List Sample)
    (i : Nat) (hi : i < (ga.xUnitsTr xs).length) :
    (ga.newDfs dt xs).getD i [] =
      ga.dfs.getD i [] ++ [(dt, (ga.xUnitsTr xs).getD i [])] := by
  unfold GroupAnomaly.newDfs
  rw [List.getD_eq_getElem?_getD, List.getElem?_map, List.getElem?_range hi]
  rfl

theorem mem_refGroup (pg : PeerGrouping) (uid : Nat) (dt : Int) (dfs : List DF) (s : Sample) :
    s ∈ refGroup pg uid dt dfs ↔
      ∃ i, i < dfs.length ∧ i ≠ uid ∧ ∃ t, (t, s) ∈ dfs.getD i [] ∧
        dt - pg.w_ref_group ≤ t ∧ t ≤ dt := by
  unfold refGroup
  rw [List.mem_flatMap]
  constructor
  · rintro ⟨i, hi, hs⟩
    rw [List.mem_range] at hi
    by_cases hiu : i = uid
    · simp [hiu] at hs
    · simp only [hiu, if_false] at hs
      rw [List.mem_map] at hs
      obtain ⟨p, hp, hps⟩ := hs
      obtain ⟨t, y⟩ := p
      rw [List.mem_filter] at hp
      obtain ⟨hpmem, hpcond⟩ := hp
      simp only [Bool.and_eq_true, decide_eq_true_eq] at hpcond
      cases hps
      exact ⟨i, hi, hiu, t, hpmem, hpcond.1, hpcond.2⟩
  · rintro ⟨i, hilen, hiu, t, htmem, h1, h2⟩
    refine ⟨i, List.mem_range.mpr hilen, ?_⟩
    simp only [hiu, if_false]
    rw [List.mem_map]
    exact ⟨(t, s), List.mem_filter.mpr ⟨htmem, by simp [h1, h2]⟩, rfl⟩

theorem gtr_testUnit_iff (pg : PeerGrouping) (uid : Nat) (dt : Int) (dfs : List DF) :
    pg.get_target_and_reference uid dt dfs = .error .testUnitError ↔
      ∀ p ∈ dfs.getD uid [], p.1 ≠ dt := by
  unfold PeerGrouping.get_target_and_reference
  split
  · rename_i hf
    constructor
    · intro _ p hp
      simpa using List.find?_eq_none.mp hf p hp
    · intro _
      rfl
  · rename_i tp hf
    constructor
    · intro h
      split at h <;> simp_all
    · intro hall
      have hdec := List.find?_some hf
      simp only [decide_eq_true_eq] at hdec
      exact absurd hdec (hall tp (List.mem_of_find?_eq_some hf))

theorem gtr_noRef_iff (pg : PeerGrouping) (uid : Nat) (dt : Int) (dfs : List DF) :
    pg.get_target_and_reference uid dt dfs = .error .noRefGroupError ↔
      (∃ p ∈ dfs.getD uid [], p.1 = dt) ∧ refGroup pg uid dt dfs = [] := by
  unfold PeerGrouping.get_target_and_reference
  split
  · rename_i hf
    constructor
    · intro h
      simp at h
    · rintro ⟨⟨p, hp, hpdt⟩, _⟩
      have h2 := List.find?_eq_none.mp hf p hp
      simp [hpdt] at h2
  · rename_i tp hf
    constructor
    · intro h
      split at h
      · rename_i hemp
        have hdec := List.find?_some hf
        simp only [decide_eq_true_eq] at hdec
        exact ⟨⟨tp, List.mem_of_find?_eq_some hf, hdec⟩, List.isEmpty_iff.mp hemp⟩
      · simp at h
    · rintro ⟨_, hemp⟩
      simp [hemp]

theorem gtr_ok_spec (pg : PeerGrouping) (uid : Nat) (dt : Int) (dfs : List DF)
    (x : Sample) (R : List Sample)
    (h : pg.get_target_and_reference uid dt dfs = .ok (x, R)) :
    (∃ p ∈ dfs.getD uid [], p.1 = dt ∧ p.2 = x) ∧ R = refGroup pg uid dt dfs ∧ R ≠ [] := by
  unfold PeerGrouping.get_target_and_reference at h
  split at h
  · simp at h
  · rename_i tp hf
    split at h
    · simp at h
    · rename_i hemp
      simp only [Except.ok.injEq, Prod.mk.injEq] at h
      obtain ⟨hx, hR⟩ := h
      have hdec := List.find?_some hf
      simp only [decide_eq_true_eq] at hdec
      refine ⟨⟨tp, List.mem_of_find?_eq_some hf, hdec, hx⟩, hR.symm, ?_⟩
      intro hnil
      rw [hnil] at hR
      exact hemp (by simp [hR])

theorem predictLoop_cons_error (pg : PeerGrouping) (dt : Int) (dfs : List DF)
    (detectors : List Detector) (u : Nat) (rest : List Nat) (e : GrandError) (d2 : Detector)
    (hu : predictUnit pg u dt dfs (detectors.getD u defaultDetector) = (.error e, d2)) :
    predictLoop pg dt dfs detectors (u :: rest) = (.error e, detectors.set u d2) := by
  rw [predictLoop, hu]

theorem predictLoop_cons_ok_error (pg : PeerGrouping) (dt : Int) (dfs : List DF)
    (detectors : List Detector) (u : Nat) (rest : List Nat) (c : DeviationContext)
    (d2 : Detector) (e : GrandError) (ds : List Detector)
    (hu : predictUnit pg u dt dfs (detectors.getD u defaultDetector) = (.ok c, d2))
    (hl : predictLoop pg dt dfs (detectors.set u d2) rest = (.error e, ds)) :
    predictLoop pg dt dfs detectors (u :: rest) = (.error e, ds) := by
  rw [predictLoop, hu]
  dsimp only
  rw [hl]

theorem predictLoop_cons_ok_ok (pg : PeerGrouping) (dt : Int) (dfs : List DF)
    (detectors : List Detector) (u : Nat) (rest : List Nat) (c : DeviationContext)
    (d2 : Detector) (cs : List DeviationContext) (ds : List Detector)
    (hu : predictUnit pg u dt dfs (detectors.getD u defaultDetector) = (.ok c, d2))
    (hl : predictLoop pg dt dfs (detectors.set u d2) rest = (.ok cs, ds)) :
    predictLoop pg dt dfs detectors (u :: rest) = (.ok (c :: cs), ds) := by
  rw [predictLoop, hu]
  dsimp only
  rw [hl]

theorem predictLoop_append (pg : PeerGrouping) (dt : Int) (dfs : List DF) :
    ∀ (ids1 ids2 : List Nat) (detectors : List Detector),
      predictLoop pg dt dfs detectors (ids1 ++ ids2) =
        match predictLoop pg dt dfs detectors ids1 with
        | (.error e, ds) => (.error e, ds)
        | (.ok c1, ds) =>
          match predictLoop pg dt dfs ds ids2 with
          | (.error e, ds2) => (.error e, ds2)
          | (.ok c2, ds2) => (.ok (c1 ++ c2), ds2) := by
  intro ids1
  induction ids1 with
  | nil =>
    intro ids2 detectors
    rw [List.nil_append]
    show predictLoop pg dt dfs detectors ids2 =
      match predictLoop pg dt dfs detectors ids2 with
      | (.error e, ds2) => (.error e, ds2)
      | (.ok c2, ds2) => (.ok ([] ++ c2), ds2)
    cases hl : predictLoop pg dt dfs detectors ids2 with
    | mk rr ds =>
      cases rr with
      | error e => dsimp only
      | ok cs => dsimp only; rw [List.nil_append]
  | cons u rest ih =>
    intro ids2 detectors
    rw [List.cons_append]
    cases hu : predictUnit pg u dt dfs (detectors.getD u defaultDetector) with
    | mk r d2 =>
      cases r with
      | error e =>
        rw [predictLoop_cons_error pg dt dfs detectors u (rest ++ ids2) e d2 hu,
          predictLoop_cons_error pg dt dfs detectors u rest e d2 hu]
      | ok c =>
        have ihx := ih ids2 (detectors.set u d2)
        cases hl1 : predictLoop pg dt dfs (detectors.set u d2) rest with
        | mk rr1 ds1 =>
          cases rr1 with
          | error e =>
            rw [hl1] at ihx
            dsimp only at ihx
            rw [predictLoop_cons_ok_error pg dt dfs detectors u (rest ++ ids2) c d2 e ds1 hu ihx,
              predictLoop_cons_ok_error pg dt dfs detectors u rest c d2 e ds1 hu hl1]
          | ok cs1 =>
            rw [hl1] at ihx
            dsimp only at ihx
            cases hl2 : predictLoop pg dt dfs ds1 ids2 with
            | mk rr2 ds2 =>
              cases rr2 with
              | error e2 =>
                rw [hl2] at ihx
                dsimp only at ihx
                rw [predictLoop_cons_ok_error pg dt dfs detectors u (rest ++ ids2) c d2 e2 ds2
                    hu ihx,
                  predictLoop_cons_ok_ok pg dt dfs detectors u rest c d2 cs1 ds1 hu hl1]
                dsimp only
                rw [hl2]
              | ok cs2 =>
                rw [hl2] at ihx
                dsimp only at ihx
                rw [predictLoop_cons_ok_ok pg dt dfs detectors u (rest ++ ids2) c d2 (cs1 ++ cs2)
                    ds2 hu ihx,
                  predictLoop_cons_ok_ok pg dt dfs detectors u rest c d2 cs1 ds1 hu hl1]
                dsimp only
                rw [hl2]
                dsimp only
                rw [List.cons_append]

/-- C1: if obtaining a target unit's sample and reference group fails with
`TestUnitError` or `NoRefGroupError`, `GroupAnomaly.predict` reports the
neutral default `(strangeness 0, pvalue 1/2, deviation 0, not deviating)` at
that unit's position, and never lets those two errors escape. -/
theorem groupAnomaly_neutral_on_peer_errors (ga : GroupAnomaly) (dt : Int)
    (xs : List Sample) (j uid : Nat) (hj : ga.ids_target_units[j]? = some uid)
    (herr : ga.pg.get_target_and_reference uid dt (ga.newDfs dt xs) = .error .testUnitError ∨
      ga.pg.get_target_and_reference uid dt (ga.newDfs dt xs) = .error .noRefGroupError) :
    (∀ e, (ga.predict dt xs).1 = .error e → e = .insufficientReferenceError) ∧
    ∀ ctxs, (ga.predict dt xs).1 = .ok ctxs → ctxs[j]? = some neutralContext := by
  constructor
  · intro e he
    rw [GroupAnomaly.predict_fst] at he
    exact predictLoop_error ga.pg dt (ga.newDfs dt xs) ga.ids_target_units ga.detectors e he
  · intro ctxs hok
    rw [GroupAnomaly.predict_fst] at hok
    exact predictLoop_get_neutral ga.pg dt (ga.newDfs dt xs) ga.ids_target_units j uid
      ga.detectors ctxs hj (fun d0 => predictUnit_neutral_of_pg_error _ _ _ _ d0 herr) hok

/-- Witness for C1: a two-unit system asked to predict with peer data absent
for the step falls back to the neutral context for target unit 0. -/
theorem groupAnomaly_neutral_on_peer_errors_witness :
    (gaTwo.predict 0 [[1]]).1 = .ok [neutralContext] ∧
    [neutralContext][0]? = some neutralContext :=
  ⟨rfl, (groupAnomaly_neutral_on_peer_errors gaTwo 0 [[1]] 0 0 rfl (Or.inr rfl)).2
    [neutralContext] rfl⟩

/-- C2: every deviation context in a successful `predict` result has its
p-value and its deviation level inside [0,1], whatever the magnitude of the
strangeness score. -/
theorem groupAnomaly_pvalue_deviation_in_unit_interval (ga : GroupAnomaly) (dt : Int)
    (xs : List Sample) (ctxs : List DeviationContext)
    (h : (ga.predict dt xs).1 = .ok ctxs) :
    ∀ c ∈ ctxs, (0 ≤ c.pvalue ∧ c.pvalue ≤ 1) ∧ (0 ≤ c.deviation ∧ c.deviation ≤ 1) := by
  intro c hc
  rw [GroupAnomaly.predict_fst] at h
  rcases predictLoop_ok_mem ga.pg dt (ga.newDfs dt xs) ga.ids_target_units ga.detectors
      ctxs h c hc with rfl | ⟨d, x, d', hp⟩
  · refine ⟨⟨?_, ?_⟩, ⟨?_, ?_⟩⟩ <;> norm_num [neutralContext]
  · have hs := Detector.predict_ok_spec d dt x c d' hp
    exact ⟨hs.1, hs.2.1⟩

/-- Witness for C2 at a concrete step whose result is the neutral context. -/
theorem groupAnomaly_pvalue_deviation_in_unit_interval_witness :
    (gaTwo.predict 0 [[1]]).1 = .ok [neutralContext] ∧
    ∀ c ∈ [neutralContext], (0 ≤ c.pvalue ∧ c.pvalue ≤ 1) ∧
      (0 ≤ c.deviation ∧ c.deviation ≤ 1) :=
  ⟨rfl, groupAnomaly_pvalue_deviation_in_unit_interval gaTwo 0 [[1]] [neutralContext] rfl⟩

/-- C3 counterexample: with `dev_threshold = 0` (allowed by the configuration
surface, `dev_threshold ∈ [0,1]`), a unit that falls back to the neutral
default gets `deviation = 0 ≥ dev_threshold` yet `is_deviating = false`, so
the biconditional fails as stated. -/
theorem threshold_biconditional_counterexample :
    ¬ ∀ (ga : GroupAnomaly) (dt : Int) (xs : List Sample) (ctxs : List DeviationContext),
        (ga.predict dt xs).1 = .ok ctxs →
        ∀ c ∈ ctxs, (c.is_deviating = true ↔ ga.dev_threshold ≤ c.deviation) := by
  intro hclaim
  have h := hclaim gaThr0 0 [[1]] [neutralContext] rfl neutralContext (by simp)
  have h2 : gaThr0.dev_threshold ≤ neutralContext.deviation := le_refl 0
  have h3 := h.mpr h2
  simp [neutralContext] at h3

/-- C3 amended: for detector-produced contexts the flag is exactly the
threshold test, and the neutral fallback has `is_deviating = false`; hence
the biconditional `is_deviating ↔ deviation ≥ dev_threshold` holds for every
produced context whenever the configured threshold is positive (the
detectors carrying the configured threshold, as they do from construction). -/
theorem groupAnomaly_threshold_biconditional_pos (ga : GroupAnomaly) (dt : Int)
    (xs : List Sample) (ctxs : List DeviationContext)
    (hpos : 0 < ga.dev_threshold)
    (hthr : ∀ d ∈ ga.detectors, d.dev_threshold = ga.dev_threshold)
    (hids : ∀ u ∈ ga.ids_target_units, u < ga.detectors.length)
    (h : (ga.predict dt xs).1 = .ok ctxs) :
    ∀ c ∈ ctxs, (c.is_deviating = true ↔ ga.dev_threshold ≤ c.deviation) := by
  intro c hc
  rw [GroupAnomaly.predict_fst] at h
  rcases predictLoop_ok_mem_thr ga.pg dt (ga.newDfs dt xs) ga.dev_threshold
      ga.ids_target_units ga.detectors hids hthr ctxs h c hc with rfl | ⟨d, x, d', hthr2, hp⟩
  · constructor
    · intro hfalse
      simp [neutralContext] at hfalse
    · intro hle
      exact absurd hle (not_le.mpr hpos)
  · have hs := Detector.predict_ok_spec d dt x c d' hp
    rw [hs.2.2.1, hthr2]
    simp

/-- Witness for the amended C3 at a threshold of one half. -/
theorem groupAnomaly_threshold_biconditional_pos_witness :
    (0 < gaTwo.dev_threshold) ∧
    ∀ c ∈ [neutralContext], (c.is_deviating = true ↔ gaTwo.dev_threshold ≤ c.deviation) :=
  ⟨one_half_pos, groupAnomaly_threshold_biconditional_pos gaTwo 0 [[1]] [neutralContext]
    one_half_pos
    (by
      intro d hd
      simp only [gaTwo, GroupAnomaly.init, List.mem_replicate] at hd
      rw [hd.2]
      rfl)
    (by decide) rfl⟩

/-- C4: a successful `predict` returns exactly one context per configured
target unit, and the loop processes the target ids strictly in list order:
running it on a concatenation of id lists is the sequential composition of
the two runs. -/
theorem groupAnomaly_output_per_target_in_order (ga : GroupAnomaly) (dt : Int)
    (xs : List Sample) :
    (∀ ctxs, (ga.predict dt xs).1 = .ok ctxs → ctxs.length = ga.ids_target_units.length) ∧
    (∀ (ids1 ids2 : List Nat) (detectors : List Detector),
      predictLoop ga.pg dt (ga.newDfs dt xs) detectors (ids1 ++ ids2) =
        match predictLoop ga.pg dt (ga.newDfs dt xs) detectors ids1 with
        | (.error e, ds) => (.error e, ds)
        | (.ok c1, ds) =>
          match predictLoop ga.pg dt (ga.newDfs dt xs) ds ids2 with
          | (.error e, ds2) => (.error e, ds2)
          | (.ok c2, ds2) => (.ok (c1 ++ c2), ds2)) := by
  constructor
  · intro ctxs h
    rw [GroupAnomaly.predict_fst] at h
    exact predictLoop_length ga.pg dt (ga.newDfs dt xs) ga.ids_target_units ga.detectors ctxs h
  · exact predictLoop_append ga.pg dt (ga.newDfs dt xs)

/-- Witness for C4 at a concrete call returning one context for one target. -/
theorem groupAnomaly_output_per_target_in_order_witness :
    (gaTwo.predict 0 [[1]]).1 = .ok [neutralContext] ∧
    [neutralContext].length = gaTwo.ids_target_units.length :=
  ⟨rfl, (groupAnomaly_output_per_target_in_order gaTwo 0 [[1]]).1 [neutralContext] rfl⟩

/-- C5 counterexample: with the knn scorer and the source's default `k = 20`
but a single available reference sample, predict does NOT substitute the
neutral default: the scorer's `InsufficientReferenceError` escapes the call
(`group_anomaly.py:109` catches only `TestUnitError` and `NoRefGroupError`). -/
theorem insufficient_reference_not_caught_counterexample :
    (gaKnn.predict 0 [[1], [2]]).1 = .error .insufficientReferenceError := rfl

/-- C5 amended: the only error that can escape `predict` is the scorer's
`InsufficientReferenceError`; the two peer-grouping errors are always caught,
but the scorer error is never mapped to the neutral default. -/
theorem groupAnomaly_error_only_insufficient (ga : GroupAnomaly) (dt : Int)
    (xs : List Sample) (e : GrandError) (h : (ga.predict dt xs).1 = .error e) :
    e = .insufficientReferenceError := by
  rw [GroupAnomaly.predict_fst] at h
  exact predictLoop_error ga.pg dt (ga.newDfs dt xs) ga.ids_target_units ga.detectors e h

/-- Witness for the amended C5 at the concrete failing knn configuration. -/
theorem groupAnomaly_error_only_insufficient_witness :
    (gaKnn.predict 0 [[1], [2]]).1 = .error .insufficientReferenceError ∧
    GrandError.insufficientReferenceError = .insufficientReferenceError :=
  ⟨rfl, groupAnomaly_error_only_insufficient gaKnn 0 [[1], [2]]
    .insufficientReferenceError rfl⟩

/-- C6: calling `predict` with fewer samples than `nb_units` raises nothing:
the call succeeds with the neutral context and the stored per-unit histories
are silently truncated from the configured two units down to one, because
the comprehensions at `group_anomaly.py:95` and `group_anomaly.py:98` are
driven by `x_units` and the length assertion is only a TODO
(`group_anomaly.py:66`), although the class docstring requires
`nb_units == len(x_units)`. -/
theorem wrong_length_silently_accepted :
    gaTwo.nb_units = 2 ∧
    (gaTwo.predict 0 [[1]]).1 = .ok [neutralContext] ∧
    (gaTwo.predict 0 [[1]]).2.dfs_original.length = 1 ∧
    (gaTwo.predict 0 [[1]]).2.dfs.length = 1 :=
  ⟨rfl, rfl, rfl, rfl⟩

/-- C7: one `predict` call appends exactly one (timestamp, sample) row to a
unit's raw history and exactly one to its transformed history, leaving every
existing row untouched, so equal raw/transformed history lengths are
preserved across the step. -/
theorem groupAnomaly_histories_append_one (ga : GroupAnomaly) (dt : Int)
    (xs : List Sample) (i : Nat) (hi : i < ga.nb_units)
    (hx : xs.length = ga.nb_units) (htr : ga.transformers.length = ga.nb_units) :
    ((ga.predict dt xs).2.dfs_original.getD i [] =
      ga.dfs_original.getD i [] ++ [(dt, xs.getD i [])]) ∧
    (∃ y, (ga.predict dt xs).2.dfs.getD i [] = ga.dfs.getD i [] ++ [(dt, y)]) ∧
    ((ga.dfs.getD i []).length = (ga.dfs_original.getD i []).length →
      ((ga.predict dt xs).2.dfs.getD i []).length =
        ((ga.predict dt xs).2.dfs_original.getD i []).length) := by
  have hi1 : i < xs.length := by rw [hx]; exact hi
  have hitr : i < (ga.xUnitsTr xs).length := by
    rw [xUnitsTr_length, hx, htr, Nat.min_self]
    exact hi
  refine ⟨?_, ⟨(ga.xUnitsTr xs).getD i [], ?_⟩, ?_⟩
  · rw [GroupAnomaly.predict_snd_dfs_original]
    exact newDfsOriginal_getD ga dt xs i hi1
  · rw [GroupAnomaly.predict_snd_dfs]
    exact newDfs_getD ga dt xs i hitr
  · intro heq
    rw [GroupAnomaly.predict_snd_dfs, GroupAnomaly.predict_snd_dfs_original,
      newDfs_getD ga dt xs i hitr, newDfsOriginal_getD ga dt xs i hi1]
    simp only [List.length_append, List.length_cons, List.length_nil]
    omega

/-- Witness for C7 at a two-unit call with matching sample count. -/
theorem groupAnomaly_histories_append_one_witness :
    (0 < gaTwo.nb_units) ∧
    (gaTwo.predict 0 [[1], [2]]).2.dfs_original.getD 0 [] =
      gaTwo.dfs_original.getD 0 [] ++ [(0, ([[1], [2]] : List Sample).getD 0 [])] :=
  ⟨by decide, (groupAnomaly_histories_append_one gaTwo 0 [[1], [2]] 0 (by decide) rfl rfl).1⟩

/-- C8: the tie-break randomness is an explicit seed, so two systems built
with the same configuration and seed produce identical context sequences on
identical input streams. -/
theorem groupAnomaly_run_deterministic (nb : Nat) (ids : List Nat) (w : Int)
    (wm : Nat) (nc : NonConformity) (k : Nat) (thr : ℚ) (tk : TransformKind)
    (wt : Nat) (seed : Nat) (s1 s2 : List (Int × List Sample)) (hs : s1 = s2) :
    (GroupAnomaly.init nb ids w wm nc k thr tk wt seed).run s1 =
      (GroupAnomaly.init nb ids w wm nc k thr tk wt seed).run s2 := by
  rw [hs]

/-- Witness for C8 at a one-unit stream of one step. -/
theorem groupAnomaly_run_deterministic_witness :
    (GroupAnomaly.init 1 [0] 7 15 .median 20 0 .identity 30 0).run [(0, [[1]])] =
      (GroupAnomaly.init 1 [0] 7 15 .median 20 0 .identity 30 0).run [(0, [[1]])] :=
  groupAnomaly_run_deterministic 1 [0] 7 15 .median 20 0 .identity 30 0
    [(0, [[1]])] [(0, [[1]])] rfl

/-- C9: `get_target_and_reference` fails with `TestUnitError` exactly when
the target has no sample at `dt`; fails with `NoRefGroupError` exactly when
the target sample exists but no sample of any other unit falls in the closed
window [dt - w_ref_group, dt]; and on success returns the target's sample at
`dt` with exactly the peer samples of that window as reference set. -/
theorem peerGrouping_reference_characterization (pg : PeerGrouping) (uid : Nat)
    (dt : Int) (dfs : List DF) :
    (pg.get_target_and_reference uid dt dfs = .error .testUnitError ↔
      ∀ p ∈ dfs.getD uid [], p.1 ≠ dt) ∧
    (pg.get_target_and_reference uid dt dfs = .error .noRefGroupError ↔
      (∃ p ∈ dfs.getD uid [], p.1 = dt) ∧
      ∀ s : Sample, ¬∃ i, i < dfs.length ∧ i ≠ uid ∧ ∃ t, (t, s) ∈ dfs.getD i [] ∧
        dt - pg.w_ref_group ≤ t ∧ t ≤ dt) ∧
    (∀ x R, pg.get_target_and_reference uid dt dfs = .ok (x, R) →
      (∃ p ∈ dfs.getD uid [], p.1 = dt ∧ p.2 = x) ∧ R ≠ [] ∧
      ∀ s : Sample, s ∈ R ↔ ∃ i, i < dfs.length ∧ i ≠ uid ∧ ∃ t, (t, s) ∈ dfs.getD i [] ∧
        dt - pg.w_ref_group ≤ t ∧ t ≤ dt) := by
  refine ⟨gtr_testUnit_iff pg uid dt dfs, ?_, ?_⟩
  · rw [gtr_noRef_iff]
    constructor
    · rintro ⟨hex, hemp⟩
      refine ⟨hex, fun s hs => ?_⟩
      rw [← mem_refGroup pg uid dt dfs s] at hs
      rw [hemp] at hs
      simp at hs
    · rintro ⟨hex, hnone⟩
      refine ⟨hex, ?_⟩
      rw [List.eq_nil_iff_forall_not_mem]
      intro s hs
      exact hnone s ((mem_refGroup pg uid dt dfs s).mp hs)
  · intro x R h
    obtain ⟨hex, hR, hne⟩ := gtr_ok_spec pg uid dt dfs x R h
    refine ⟨hex, hne, fun s => ?_⟩
    rw [hR]
    exact mem_refGroup pg uid dt dfs s

/-- Witness for C9: an empty target history produces `TestUnitError`. -/
theorem peerGrouping_reference_characterization_witness :
    PeerGrouping.get_target_and_reference ⟨7⟩ 0 0 [[]] = .error .testUnitError :=
  (peerGrouping_reference_characterization ⟨7⟩ 0 0 [[]]).1.mpr (by simp)

/-- C10: a unit that is not in the target list never has its detector
touched by `predict` — its whole detector state, including the `T`, `S`,
`P`, `M` sequences, is unchanged — while its raw and transformed histories
still gain exactly one row, so it keeps serving as peer data. -/
theorem groupAnomaly_nontarget_frame (ga : GroupAnomaly) (dt : Int) (xs : List Sample)
    (i : Nat) (hi : i < ga.nb_units) (hni : i ∉ ga.ids_target_units)
    (hx : xs.length = ga.nb_units) (htr : ga.transformers.length = ga.nb_units) :
    ((ga.predict dt xs).2.detectors[i]? = ga.detectors[i]?) ∧
    ((ga.predict dt xs).2.dfs_original.getD i [] =
      ga.dfs_original.getD i [] ++ [(dt, xs.getD i [])]) ∧
    (∃ y, (ga.predict dt xs).2.dfs.getD i [] = ga.dfs.getD i [] ++ [(dt, y)]) := by
  have hi1 : i < xs.length := by rw [hx]; exact hi
  have hitr : i < (ga.xUnitsTr xs).length := by
    rw [xUnitsTr_length, hx, htr, Nat.min_self]
    exact hi
  refine ⟨?_, ?_, ⟨(ga.xUnitsTr xs).getD i [], ?_⟩⟩
  · rw [GroupAnomaly.predict_snd_detectors]
    exact predictLoop_frame ga.pg dt (ga.newDfs dt xs) ga.ids_target_units ga.detectors i hni
  · rw [GroupAnomaly.predict_snd_dfs_original]
    exact newDfsOriginal_getD ga dt xs i hi1
  · rw [GroupAnomaly.predict_snd_dfs]
    exact newDfs_getD ga dt xs i hitr

/-- Witness for C10: unit 1 is not a target of `gaTwo` and its detector slot
is untouched by the call. -/
theorem groupAnomaly_nontarget_frame_witness :
    (1 ∉ gaTwo.ids_target_units) ∧
    (gaTwo.predict 0 [[1], [2]]).2.detectors[1]? = gaTwo.detectors[1]? :=
  ⟨by decide, (groupAnomaly_nontarget_frame gaTwo 0 [[1], [2]] 1 (by decide) (by decide)
    rfl rfl).1⟩
